import Mathlib

/-!
Shallow embedding of the cryptcord-server request pipeline.

The embedding follows the active code paths of the repository:
src/server.py (Server._listen, Server.main), src/handlers/messages.py
(post_message, retrieve_messages), src/database/utilities.py (get_user_id),
src/database/operations.py (get_or_create_user), src/database/_models.py
(User, EncryptedMessage) and src/database/models.py (ExchangeKey).

External libraries (the json parser, base64 decoding, Ed25519 signature
verification, datetime.fromisoformat) are taken as parameters of the
pipeline; the serializer json.dumps is modelled concretely because claims
depend on its byte-level behaviour.  Datetimes are modelled as abstract
ticks (Nat); bytes are modelled as Nat values.
-/

/-- Exceptions that can be raised while handling a request.  Each
constructor corresponds to one Python exception class reachable in
Server._listen; the active code maps requestTooLarge to a 413 envelope
and every other exception to a 500 envelope. -/
inductive PyError where
  | jsonDecode
  | keyError
  | typeError
  | malformedRequest
  | malformedData
  | binasciiError
  | valueError
  | invalidSignature
  | unrecognisedCommand
  | requestTooLarge
  | integrityError
deriving DecidableEq

mutual
/-- JSON values, as produced by json.loads.  Numbers are modelled as
integers: JSON floats (IEEE doubles in Python) are outside this model,
a documented boundary of the embedding; within the fragment, the
bool-int conflation of Python equality is modelled in jsonEquiv. -/
inductive JSON where
  | null
  | bool (b : Bool)
  | num (n : Int)
  | str (s : String)
  | arr (xs : JSONList)
  | obj (kvs : JSONObj)
deriving DecidableEq
/-- A list of JSON values (elements of a JSON array). -/
inductive JSONList where
  | nil
  | cons (hd : JSON) (tl : JSONList)
deriving DecidableEq
/-- The ordered field list of a JSON object.  Python dicts keep insertion
order and have unique keys; objects built by json.loads are assumed to
have unique keys. -/
inductive JSONObj where
  | nil
  | cons (key : String) (val : JSON) (tl : JSONObj)
deriving DecidableEq
end

/-- Dictionary lookup on a JSON object (unique keys assumed). -/
def objLookup : JSONObj → String → Option JSON
  | .nil, _ => none
  | .cons k v tl, key => if k == key then some v else objLookup tl key

/-- Python subscript request[key]: KeyError on a dict without the key,
TypeError when the value is not a dict (matching list/str/int subscript
behaviour with a string index). -/
def pyIndex (j : JSON) (key : String) : Except PyError JSON :=
  match j with
  | .obj kvs =>
    match objLookup kvs key with
    | some v => .ok v
    | none => .error .keyError
  | _ => .error .typeError

/-- isinstance(x, dict) check used on request[data]. -/
def requireObj : JSON → Except PyError JSONObj
  | .obj kvs => .ok kvs
  | _ => .error .malformedRequest

/-- isinstance(x, str) check used on request[public_key] / request[signature]. -/
def requireStr : JSON → Except PyError String
  | .str s => .ok s
  | _ => .error .malformedRequest

/-- Lower-case hexadecimal digit, as used by the json escape sequences. -/
def hexDigit (n : Nat) : Char :=
  if n < 10 then Char.ofNat (48 + n) else Char.ofNat (87 + n)

/-- Four-digit lower-case hex rendering used in a \u escape. -/
def hex4 (n : Nat) : String :=
  String.mk [hexDigit (n / 4096 % 16), hexDigit (n / 256 % 16),
             hexDigit (n / 16 % 16), hexDigit (n % 16)]

/-- Escape of one character inside a json.dumps string literal, with the
default ensure_ascii=True: printable ASCII other than quote and backslash
is literal, everything else is escaped. -/
def escapeChar (c : Char) : String :=
  if c = '"' then "\\\""
  else if c = '\\' then "\\\\"
  else if c = '\n' then "\\n"
  else if c = '\r' then "\\r"
  else if c = '\t' then "\\t"
  else if c.toNat = 8 then "\\b"
  else if c.toNat = 12 then "\\f"
  else if 32 ≤ c.toNat ∧ c.toNat ≤ 126 then String.singleton c
  else if c.toNat < 65536 then "\\u" ++ hex4 c.toNat
  else
    let v := c.toNat - 65536
    "\\u" ++ hex4 (55296 + v / 1024) ++ "\\u" ++ hex4 (56320 + v % 1024)

/-- json.dumps rendering of a string literal. -/
def dumpString (s : String) : String :=
  "\"" ++ String.join (s.toList.map escapeChar) ++ "\""

mutual
/-- json.dumps with the library defaults used at src/server.py line 85:
item separator is comma-space, key separator colon-space, keys kept in
insertion order (sort_keys is not set). -/
def dumps : JSON → String
  | .null => "null"
  | .bool true => "true"
  | .bool false => "false"
  | .num n => toString n
  | .str s => dumpString s
  | .arr .nil => "[]"
  | .arr (.cons x xs) => "[" ++ dumps x ++ dumpsList xs ++ "]"
  | .obj .nil => "\x7b\x7d"
  | .obj (.cons k v tl) =>
      "\x7b" ++ dumpString k ++ ": " ++ dumps v ++ dumpsObj tl ++ "\x7d"
/-- Remaining array elements, each preceded by comma-space. -/
def dumpsList : JSONList → String
  | .nil => ""
  | .cons x xs => ", " ++ dumps x ++ dumpsList xs
/-- Remaining object fields, each preceded by comma-space. -/
def dumpsObj : JSONObj → String
  | .nil => ""
  | .cons k v tl => ", " ++ dumpString k ++ ": " ++ dumps v ++ dumpsObj tl
end

/-- Python repr() of a string: single-quoted (double-quoted when the
string contains a single quote and no double quote), with backslash,
quote and control characters escaped. -/
def pyReprString (s : String) : String :=
  let useDouble := s.contains '\'' && !(s.contains '"')
  let quote : Char := if useDouble then '"' else '\''
  let esc := fun (c : Char) =>
    if c = '\\' then "\\\\"
    else if c = quote then "\\" ++ String.singleton quote
    else if c = '\n' then "\\n"
    else if c = '\r' then "\\r"
    else if c = '\t' then "\\t"
    else if c.toNat < 32 ∨ c.toNat = 127 then
      "\\x" ++ String.mk [hexDigit (c.toNat / 16), hexDigit (c.toNat % 16)]
    else String.singleton c
  String.singleton quote ++ String.join (s.toList.map esc) ++ String.singleton quote

mutual
/-- Python str() applied to a JSON value, as used by the handler on
data fields (str(data[x])).  Container rendering follows Python repr
formatting; string escaping inside containers is simplified to the
common cases (it is never exercised by the claims, which pass strings,
where str is the identity). -/
def pyStr : JSON → String
  | .null => "None"
  | .bool true => "True"
  | .bool false => "False"
  | .num n => toString n
  | .str s => s
  | .arr .nil => "[]"
  | .arr (.cons x xs) => "[" ++ pyRepr x ++ pyStrList xs ++ "]"
  | .obj .nil => "\x7b\x7d"
  | .obj (.cons k v tl) =>
      "\x7b" ++ pyReprString k ++ ": " ++ pyRepr v ++ pyStrObj tl ++ "\x7d"
/-- Python repr() of a JSON value (used for elements inside containers). -/
def pyRepr : JSON → String
  | .str s => pyReprString s
  | .null => "None"
  | .bool true => "True"
  | .bool false => "False"
  | .num n => toString n
  | .arr .nil => "[]"
  | .arr (.cons x xs) => "[" ++ pyRepr x ++ pyStrList xs ++ "]"
  | .obj .nil => "\x7b\x7d"
  | .obj (.cons k v tl) =>
      "\x7b" ++ pyReprString k ++ ": " ++ pyRepr v ++ pyStrObj tl ++ "\x7d"
/-- Remaining list elements under str()/repr(). -/
def pyStrList : JSONList → String
  | .nil => ""
  | .cons x xs => ", " ++ pyRepr x ++ pyStrList xs
/-- Remaining dict fields under str()/repr(). -/
def pyStrObj : JSONObj → String
  | .nil => ""
  | .cons k v tl => ", " ++ pyReprString k ++ ": " ++ pyRepr v ++ pyStrObj tl
end

/-- A row of the users table (src/database/_models.py User): integer
primary key and a globally unique public key string. -/
structure User where
  id : Nat
  public_key : String
deriving DecidableEq

/-- A row of the encrypted_messages table (src/database/_models.py
EncryptedMessage).  The table has a unique index on
(recipient_id, timestamp) and a check constraint
recipient_id != sender_id; it has no nonce column. -/
structure EncryptedMessage where
  id : Nat
  ciphertext : String
  signature : String
  recipient_id : Nat
  sender_id : Nat
  timestamp : Nat
deriving DecidableEq

/-- A row of the exchange_keys table (src/database/models.py ExchangeKey),
with the same recipient_id != sender_id check constraint. -/
structure ExchangeKey where
  id : Nat
  key : String
  signature : String
  response_to : Option String
  recipient_id : Nat
  sender_id : Nat
  timestamp : Nat
  nonce : String
deriving DecidableEq

/-- The relational store: one list per table, in insertion order. -/
structure DB where
  users : List User
  messages : List EncryptedMessage
  exchange_keys : List ExchangeKey
deriving DecidableEq

/-- Fresh integer primary key: one more than the largest id in use
(SQLite rowid assignment). -/
def freshId (ids : List Nat) : Nat := ids.foldr max 0 + 1

/-- INSERT INTO users, enforcing the unique constraint on public_key.
A violation surfaces as IntegrityError. -/
def DB.insertUser (db : DB) (key : String) : Except PyError (DB × User) :=
  if db.users.any (fun u => u.public_key == key) then .error .integrityError
  else
    let u : User := ⟨freshId (db.users.map User.id), key⟩
    .ok ({ db with users := db.users ++ [u] }, u)

/-- INSERT INTO encrypted_messages, enforcing the check constraint
recipient_id != sender_id and the unique index on
(recipient_id, timestamp) declared in src/database/_models.py. -/
def DB.insertEncryptedMessage (db : DB) (ciphertext signature : String)
    (sender_id recipient_id timestamp : Nat) :
    Except PyError (DB × EncryptedMessage) :=
  if recipient_id == sender_id then .error .integrityError
  else if db.messages.any
      (fun m => m.recipient_id == recipient_id && m.timestamp == timestamp) then
    .error .integrityError
  else
    let m : EncryptedMessage :=
      ⟨freshId (db.messages.map EncryptedMessage.id),
       ciphertext, signature, recipient_id, sender_id, timestamp⟩
    .ok ({ db with messages := db.messages ++ [m] }, m)

/-- INSERT INTO exchange_keys, enforcing the check constraint
recipient_id != sender_id declared in src/database/models.py. -/
def DB.insertExchangeKey (db : DB) (key signature : String)
    (response_to : Option String) (sender_id recipient_id timestamp : Nat)
    (nonce : String) : Except PyError (DB × ExchangeKey) :=
  if recipient_id == sender_id then .error .integrityError
  else
    let k : ExchangeKey :=
      ⟨freshId (db.exchange_keys.map ExchangeKey.id),
       key, signature, response_to, recipient_id, sender_id, timestamp, nonce⟩
    .ok ({ db with exchange_keys := db.exchange_keys ++ [k] }, k)

/-- Observable actions of one connection task, in the order they are
performed.  verified marks a successful signature verification,
dispatched a successful handler lookup, identityResolution a call of
get_user_id, storageWrite a committed row insertion. -/
inductive Event where
  | verified
  | dispatched
  | identityResolution
  | storageWrite
deriving DecidableEq

/-- src/database/utilities.py get_user_id, in sequential semantics:
select the user row by public key; when absent, add and commit a new row
and re-read it.  The select uses the unique key constraint, so at most
one row can match. -/
def get_user_id (db : DB) (key : String) : DB × Nat × List Event :=
  match db.users.find? (fun u => u.public_key == key) with
  | some u => (db, u.id, [Event.identityResolution])
  | none =>
    let u : User := ⟨freshId (db.users.map User.id), key⟩
    ({ db with users := db.users ++ [u] }, u.id,
     [Event.identityResolution, Event.storageWrite])

/-- Rendering of the server-assigned timestamp
(message.timestamp.isoformat()); ticks are rendered as their decimal
numeral, an injective image of the datetime. -/
def isoformat (t : Nat) : String := toString t

instance {ε α : Type} [DecidableEq ε] [DecidableEq α] :
    DecidableEq (Except ε α) := fun a b =>
  match a, b with
  | .ok x, .ok y =>
    match decEq x y with
    | isTrue h => isTrue (by rw [h])
    | isFalse h => isFalse (by intro hh; injection hh; exact h (by assumption))
  | .ok _, .error _ => isFalse (by intro hh; exact Except.noConfusion hh)
  | .error _, .ok _ => isFalse (by intro hh; exact Except.noConfusion hh)
  | .error x, .error y =>
    match decEq x y with
    | isTrue h => isTrue (by rw [h])
    | isFalse h => isFalse (by intro hh; injection hh; exact h (by assumption))

/-- Outcome of one handler invocation: the value returned or the
exception raised, the database afterwards, and the emitted events. -/
structure HandlerResult where
  result : Except PyError JSON
  db : DB
  trace : List Event
deriving DecidableEq

/-- src/handlers/messages.py post_message: read recipient_public_key,
ciphertext and signature from data (KeyError when absent, str() applied
to the values), resolve or create the recipient id, insert the message
row with the server-assigned timestamp, and return the 201 envelope
whose data holds only the timestamp. -/
def post_message (db : DB) (data : JSONObj) (user_id : Nat) (now : Nat) :
    HandlerResult :=
  match pyIndex (.obj data) "recipient_public_key" with
  | .error e => ⟨.error e, db, []⟩
  | .ok rk =>
  match pyIndex (.obj data) "ciphertext" with
  | .error e => ⟨.error e, db, []⟩
  | .ok ct =>
  match pyIndex (.obj data) "signature" with
  | .error e => ⟨.error e, db, []⟩
  | .ok sg =>
    let recipient_public_key := pyStr rk
    let ciphertext := pyStr ct
    let signature := pyStr sg
    let g := get_user_id db recipient_public_key
    match g.1.insertEncryptedMessage ciphertext signature user_id g.2.1 now with
    | .error e => ⟨.error e, g.1, g.2.2⟩
    | .ok (db2, m) =>
      ⟨.ok (.obj (.cons "status" (.num 201)
        (.cons "message" (.str "Message posted successfully.")
        (.cons "data" (.obj (.cons "timestamp" (.str (isoformat m.timestamp)) .nil))
        .nil)))),
       db2, g.2.2 ++ [Event.storageWrite]⟩

/-- Insertion of a row into a result list ordered by timestamp. -/
def insertByTs (m : EncryptedMessage) :
    List EncryptedMessage → List EncryptedMessage
  | [] => [m]
  | x :: xs =>
    if m.timestamp ≤ x.timestamp then m :: x :: xs else x :: insertByTs m xs

/-- ORDER BY timestamp over a result set (insertion sort; any sort
realises the single-key ORDER BY of the query). -/
def orderByTimestamp (ms : List EncryptedMessage) : List EncryptedMessage :=
  ms.foldr insertByTs []

/-- The result rows of the retrieval query built at
src/handlers/messages.py lines 47-54.  The where() receives the Python
expression A and B with A the recipient equality and B the timestamp
bound; bool(A) is the SQLAlchemy identity check of an eq-expression and
is False here, so A and B evaluates to A and only the recipient filter
reaches the database.  Rows are ordered by timestamp alone. -/
def retrieve_rows (db : DB) (user_id : Nat) : List EncryptedMessage :=
  orderByTimestamp (db.messages.filter (fun m => m.recipient_id == user_id))

/-- The per-row payload produced by the retrieval loop
(src/handlers/messages.py lines 57-61): only the insertion id and the
ciphertext are surfaced. -/
def messageRowJSON (m : EncryptedMessage) : JSON :=
  .obj (.cons "id" (.num m.id) (.cons "ciphertext" (.str m.ciphertext) .nil))

/-- Packaging of a list of JSON values as a JSON array. -/
def listToJSONList : List JSON → JSONList
  | [] => .nil
  | x :: xs => .cons x (listToJSONList xs)

/-- src/handlers/messages.py retrieve_messages: when min_datetime is
present it is parsed with datetime.fromisoformat (any failure raises
MalformedDataError), but the parsed bound is then dropped from the query
by the Python and described at retrieve_rows; the response carries the
200 envelope with id/ciphertext rows. -/
def retrieve_messages (parseIso : String → Option Nat) (db : DB)
    (data : JSONObj) (user_id : Nat) : HandlerResult :=
  let minOk : Except PyError Unit :=
    match objLookup data "min_datetime" with
    | none => .ok ()
    | some v =>
      match parseIso (pyStr v) with
      | some _ => .ok ()
      | none => .error .malformedData
  match minOk with
  | .error e => ⟨.error e, db, []⟩
  | .ok _ =>
    let rows := retrieve_rows db user_id
    ⟨.ok (.obj (.cons "status" (.num 200)
      (.cons "message" (.str (toString rows.length ++ " messages retrieved."))
      (.cons "data" (.obj (.cons "messages"
        (.arr (listToJSONList (rows.map messageRowJSON))) .nil))
      .nil)))),
     db, []⟩

/-- The fixed handler table _DATA_HANDLERS of src/server.py: only
POST_MESSAGE and RETRIEVE_MESSAGES are registered (the key-exchange
entries are commented out).  The membership test data[action] in
_DATA_HANDLERS raises TypeError on an unhashable value (list or dict)
and is False on any other non-matching value, which the code turns into
UnrecognisedCommandError. -/
def handlerFor (action : JSON) : Except PyError String :=
  match action with
  | .str s =>
    if s == "POST_MESSAGE" || s == "RETRIEVE_MESSAGES" then .ok s
    else .error .unrecognisedCommand
  | .arr _ => .error .typeError
  | .obj _ => .error .typeError
  | _ => .error .unrecognisedCommand

/-- Conversion of an optional library result into the exception the
library raises on failure. -/
def liftOpt {α : Type} (e : PyError) : Option α → Except PyError α
  | some a => .ok a
  | none => .error e

/-- The size-capped read of Server._listen (src/server.py lines 65-71):
at most ceiling+1 bytes are read unless the configured limit disables
the ceiling (any negative limit reads to end of stream); more than
ceiling bytes raise RequestTooLargeError.  parse stands for
decode+json.loads, b64 for base64.b64decode and verify for
Ed25519PublicKey.verify in the definitions below. -/
def readRequest (limit : Int) (raw : List Nat) : Except PyError (List Nat) :=
  if limit ≤ -1 then .ok raw
  else
    let raw_request := raw.take (limit.toNat + 1)
    if raw_request.length > limit.toNat then .error .requestTooLarge
    else .ok raw_request

/-- The decoding and authentication steps run on the bytes the read
produced (src/server.py lines 74-91). -/
def decodeVerify (parse : List Nat → Option JSON)
    (b64 : String → Option (List Nat))
    (verify : List Nat → List Nat → String → Bool)
    (bytes : List Nat) : Except PyError (JSONObj × String) := do
  let request ← liftOpt .jsonDecode (parse bytes)
  let d ← pyIndex request "data"
  let dataObj ← requireObj d
  let pk ← pyIndex request "public_key"
  let public_key_s ← requireStr pk
  let sg ← pyIndex request "signature"
  let signature_s ← requireStr sg
  let data_bytes := dumps (.obj dataObj)
  let public_key_bytes ← liftOpt .binasciiError (b64 public_key_s)
  let signature_bytes ← liftOpt .binasciiError (b64 signature_s)
  if public_key_bytes.length ≠ 32 then Except.error .valueError
  else if verify public_key_bytes signature_bytes data_bytes then
    pure (dataObj, public_key_s)
  else Except.error .invalidSignature

/-- The framing and validation prefix of Server._listen
(src/server.py lines 64-91): the size-capped read followed by decoding
and signature verification. -/
def validateRequest (parse : List Nat → Option JSON)
    (b64 : String → Option (List Nat))
    (verify : List Nat → List Nat → String → Bool)
    (limit : Int) (raw : List Nat) : Except PyError (JSONObj × String) :=
  (readRequest limit raw).bind (decodeVerify parse b64 verify)

/-- The try-block body of Server._listen: validation, dispatch, sender
identity resolution and the handler call, threading the database and the
event trace.  Dispatch is checked before the session is opened
(src/server.py lines 94-97), so get_user_id runs only for recognised
commands. -/
def processRequest (parse : List Nat → Option JSON)
    (b64 : String → Option (List Nat))
    (verify : List Nat → List Nat → String → Bool)
    (parseIso : String → Option Nat)
    (limit : Int) (raw : List Nat) (db : DB) (now : Nat) : HandlerResult :=
  match validateRequest parse b64 verify limit raw with
  | .error e => ⟨.error e, db, []⟩
  | .ok (dataObj, public_key_s) =>
    match pyIndex (.obj dataObj) "action" with
    | .error e => ⟨.error e, db, [Event.verified]⟩
    | .ok act =>
      match handlerFor act with
      | .error e => ⟨.error e, db, [Event.verified]⟩
      | .ok name =>
        let g := get_user_id db public_key_s
        let h :=
          if name == "POST_MESSAGE" then post_message g.1 dataObj g.2.1 now
          else retrieve_messages parseIso g.1 dataObj g.2.1
        ⟨h.result, h.db, Event.verified :: Event.dispatched :: (g.2.2 ++ h.trace)⟩

/-- str(e) for the exceptions converted into a 500 envelope; the text is
immaterial to the envelope contract and abstracted per exception class. -/
def pyErrText : PyError → String
  | .jsonDecode => "Expecting value"
  | .keyError => "missing key"
  | .typeError => "type error"
  | .malformedRequest => "malformed request"
  | .malformedData => "Invalid date format."
  | .binasciiError => "Invalid base64-encoded string"
  | .valueError => "An Ed25519 public key is 32 bytes long"
  | .invalidSignature => "signature verification failed"
  | .unrecognisedCommand => "unrecognised command"
  | .requestTooLarge => "request too large"
  | .integrityError => "constraint violation"

/-- The two except clauses of the active Server._listen
(src/server.py lines 109-121): RequestTooLargeError becomes a 413
envelope naming the configured limit, every other exception a 500
envelope carrying str(e).  Neither envelope has a data field. -/
def errorResponse (limit : Int) (e : PyError) : JSON :=
  match e with
  | .requestTooLarge =>
    .obj (.cons "status" (.num 413)
      (.cons "message" (.str ("Request too large. The maximum request size is "
        ++ toString limit ++ " bytes.")) .nil))
  | _ =>
    .obj (.cons "status" (.num 500)
      (.cons "message" (.str (pyErrText e)) .nil))

/-- The complete result of one accepted connection: the single response
envelope written back, the database afterwards, and the event trace. -/
structure ListenResult where
  response : JSON
  db : DB
  trace : List Event
deriving DecidableEq

/-- Server._listen as a whole: the try-block body with every exception
converted into a response envelope at the connection boundary; exactly
one envelope is produced per accepted connection. -/
def Server.listen (parse : List Nat → Option JSON)
    (b64 : String → Option (List Nat))
    (verify : List Nat → List Nat → String → Bool)
    (parseIso : String → Option Nat)
    (limit : Int) (raw : List Nat) (db : DB) (now : Nat) : ListenResult :=
  let h := processRequest parse b64 verify parseIso limit raw db now
  ⟨match h.result with
   | .ok resp => resp
   | .error e => errorResponse limit e,
   h.db, h.trace⟩

/-- The status field of a response envelope. -/
def responseStatus (resp : JSON) : Option JSON :=
  match resp with
  | .obj kvs => objLookup kvs "status"
  | _ => none

/-- Whether a response envelope carries a data field. -/
def responseHasData (resp : JSON) : Bool :=
  match resp with
  | .obj kvs => (objLookup kvs "data").isSome
  | _ => false

/-- Lookup inside the data object of a response envelope. -/
def respDataLookup (resp : JSON) (key : String) : Option JSON :=
  match resp with
  | .obj kvs =>
    match objLookup kvs "data" with
    | some (.obj d) => objLookup d key
    | _ => none
  | _ => none

/-- Base.metadata.drop_all as run by Server.main (src/server.py line
139): every table, and with it every stored row, is removed. -/
def drop_all (_ : DB) : DB := ⟨[], [], []⟩

/-- Base.metadata.create_all as run by Server.main (line 140): the
tables are recreated empty; rows are unaffected. -/
def create_all (db : DB) : DB := db

/-- The database part of Server.main startup: drop_all then create_all. -/
def startup (db : DB) : DB := create_all (drop_all db)

/-- src/database/operations.py get_or_create_user over the users table.
users is the table as seen by the SELECT; itf holds rows committed by
concurrent callers between that SELECT and this callers COMMIT, so the
COMMIT is evaluated against users ++ itf.  On IntegrityError the session
is rolled back and the key re-read; the one() re-read is modelled by
find?, with none (the unreachable empty re-read) surfacing as
Option.none.  Returns the users table afterwards and the resolved id. -/
def get_or_create_user (users : List User) (itf : List User)
    (key : String) : Option (List User × Nat) :=
  match users.find? (fun u => u.public_key == key) with
  | some u => some (users ++ itf, u.id)
  | none =>
    let committed := users ++ itf
    if committed.any (fun u => u.public_key == key) then
      (committed.find? (fun u => u.public_key == key)).map
        (fun w => (committed, w.id))
    else
      let u : User := ⟨freshId (committed.map User.id), key⟩
      let after := committed ++ [u]
      (after.find? (fun u2 => u2.public_key == key)).map
        (fun w => (after, w.id))

/-- The unique index on (recipient_id, timestamp) of encrypted_messages:
no two rows agree on both fields. -/
def msgsUniqueRT (db : DB) : Prop :=
  List.Pairwise (fun m1 m2 =>
    ¬(m1.recipient_id = m2.recipient_id ∧ m1.timestamp = m2.timestamp))
    db.messages

/-- The check constraint recipient_id != sender_id on encrypted_messages:
no stored message is self-addressed. -/
def msgsNoSelf (db : DB) : Prop :=
  ∀ m ∈ db.messages, m.sender_id ≠ m.recipient_id

/-- The check constraint recipient_id != sender_id on exchange_keys. -/
def keysNoSelf (db : DB) : Prop :=
  ∀ k ∈ db.exchange_keys, k.sender_id ≠ k.recipient_id

/-- The unique constraint on users.public_key. -/
def usersUniqueKeys (us : List User) : Prop :=
  List.Pairwise (fun u1 u2 => u1.public_key ≠ u2.public_key) us

instance (db : DB) : Decidable (msgsUniqueRT db) := by
  unfold msgsUniqueRT; infer_instance

instance (db : DB) : Decidable (msgsNoSelf db) := by
  unfold msgsNoSelf; infer_instance

instance (db : DB) : Decidable (keysNoSelf db) := by
  unfold keysNoSelf; infer_instance

instance (us : List User) : Decidable (usersUniqueKeys us) := by
  unfold usersUniqueKeys; infer_instance

/-- Number of fields of a JSON object (len of the Python dict). -/
def objLen : JSONObj → Nat
  | .nil => 0
  | .cons _ _ tl => objLen tl + 1

/-- The ordered key list of a JSON object. -/
def objKeys : JSONObj → List String
  | .nil => []
  | .cons k _ tl => k :: objKeys tl

mutual
/-- Logical equality of JSON values, following Python == on the
integer-valued fragment: dict equality ignores field order (same keys,
equal values), list equality is positional, and Python bool-int
conflation holds (True == 1 and False == 0 are true).  Assumes unique
keys, as for every dict produced by json.loads. -/
def jsonEquiv : JSON → JSON → Bool
  | .null, .null => true
  | .bool a, .bool b => a == b
  | .num a, .num b => a == b
  | .str a, .str b => a == b
  | .bool a, .num n => (a == true && n == 1) || (a == false && n == 0)
  | .num n, .bool a => (a == true && n == 1) || (a == false && n == 0)
  | .arr xs, .arr ys => jsonListEquiv xs ys
  | .obj xs, .obj ys => objLen xs == objLen ys && objSubEquiv xs ys
  | _, _ => false
/-- Positional equality of JSON arrays under jsonEquiv. -/
def jsonListEquiv : JSONList → JSONList → Bool
  | .nil, .nil => true
  | .cons x xs, .cons y ys => jsonEquiv x y && jsonListEquiv xs ys
  | _, _ => false
/-- Every field of the first object is present in the second with an
equivalent value. -/
def objSubEquiv : JSONObj → JSONObj → Bool
  | .nil, _ => true
  | .cons k v tl, ys =>
    (match objLookup ys k with
     | some w => jsonEquiv v w
     | none => false) && objSubEquiv tl ys
end

mutual
/-- Same type skeleton with the same field insertion order: every two
corresponding values have the same constructor (so a bool is never
aligned with a number), and object keys are equal position by
position. -/
def structAligned : JSON → JSON → Bool
  | .null, .null => true
  | .bool _, .bool _ => true
  | .num _, .num _ => true
  | .str _, .str _ => true
  | .arr xs, .arr ys => listAligned xs ys
  | .obj xs, .obj ys => objAligned xs ys
  | _, _ => false
/-- Positional alignment of arrays. -/
def listAligned : JSONList → JSONList → Bool
  | .nil, .nil => true
  | .cons x xs, .cons y ys => structAligned x y && listAligned xs ys
  | _, _ => false
/-- Positional alignment of object field lists. -/
def objAligned : JSONObj → JSONObj → Bool
  | .nil, .nil => true
  | .cons k v tl, .cons k2 v2 tl2 =>
    k == k2 && structAligned v v2 && objAligned tl tl2
  | _, _ => false
end

mutual
/-- Well-formedness of a JSON value as a Python object: every dict in it
has pairwise distinct keys (guaranteed by json.loads output). -/
def wfKeys : JSON → Bool
  | .arr xs => wfKeysList xs
  | .obj kvs => (objKeys kvs).Nodup && wfKeysObj kvs
  | _ => true
/-- wfKeys over the elements of an array. -/
def wfKeysList : JSONList → Bool
  | .nil => true
  | .cons x xs => wfKeys x && wfKeysList xs
/-- wfKeys over the values of an object. -/
def wfKeysObj : JSONObj → Bool
  | .nil => true
  | .cons _ v tl => wfKeys v && wfKeysObj tl
end

/-- The retrieval row set prescribed by the specification for a
message-retrieval request (claim C3): rows addressed to the caller,
narrowed by the inclusive minimum-timestamp filter when supplied,
ordered ascending by timestamp.  Modelled from the spec for comparison
against retrieve_rows. -/
def c3_claimed_rows (db : DB) (user_id : Nat) (minTs : Option Nat) :
    List EncryptedMessage :=
  orderByTimestamp (db.messages.filter (fun m =>
    m.recipient_id == user_id &&
    (match minTs with
     | some t => t ≤ m.timestamp
     | none => true)))

/-- A parse function modelling json.loads failing on undecodable input. -/
def parseFail : List Nat → Option JSON := fun _ => none

/-- A base64 decoder returning a 32-byte value for any text. -/
def b64Zero : String → Option (List Nat) := fun _ => some (List.replicate 32 0)

/-- A verifier accepting every signature. -/
def verifyTrue : List Nat → List Nat → String → Bool := fun _ _ _ => true

/-- A datetime parser accepting every string. -/
def isoAny : String → Option Nat := fun _ => some 0

/-- The freshly created database. -/
def emptyDB : DB := ⟨[], [], []⟩

/-- A well-formed POST_MESSAGE request envelope from key KA to key KB. -/
def reqPost : JSON :=
  .obj (.cons "data" (.obj (.cons "action" (.str "POST_MESSAGE")
          (.cons "recipient_public_key" (.str "KB")
          (.cons "ciphertext" (.str "C1")
          (.cons "signature" (.str "SG") .nil)))))
        (.cons "public_key" (.str "KA")
        (.cons "signature" (.str "sig") .nil)))

/-- A parse function returning the POST_MESSAGE request for any input. -/
def parsePost : List Nat → Option JSON := fun _ => some reqPost

/-- A database holding one delivered message, used as concrete input. -/
def dbPosted : DB :=
  ⟨[⟨1, "KA"⟩, ⟨2, "KB"⟩], [⟨1, "C1", "SG", 2, 1, 7⟩], []⟩

/-- A database holding only the caller KA, id 1. -/
def dbKA : DB := ⟨[⟨1, "KA"⟩], [], []⟩

/-- A POST_MESSAGE data object addressed back to KA itself. -/
def dataSelf : JSONObj :=
  .cons "action" (.str "POST_MESSAGE")
    (.cons "recipient_public_key" (.str "KA")
    (.cons "ciphertext" (.str "C1")
    (.cons "signature" (.str "SG") .nil)))

/-- A POST_MESSAGE data object addressed to KB. -/
def dataToKB : JSONObj :=
  .cons "action" (.str "POST_MESSAGE")
    (.cons "recipient_public_key" (.str "KB")
    (.cons "ciphertext" (.str "C2")
    (.cons "signature" (.str "S2") .nil)))

/-- A retrieval data object without optional filters. -/
def dataRet : JSONObj := .cons "action" (.str "RETRIEVE_MESSAGES") .nil

/-- A retrieval data object supplying a minimum timestamp. -/
def dataRetMin : JSONObj :=
  .cons "action" (.str "RETRIEVE_MESSAGES")
    (.cons "min_datetime" (.str "2020-01-01T00:00:00") .nil)

/-- A datetime parser resolving the supplied bound to tick 10. -/
def iso10 : String → Option Nat := fun _ => some 10

/-- The response the handler produces for a retrieval by user 2 against
dbPosted. -/
def respRet : JSON :=
  .obj (.cons "status" (.num 200)
    (.cons "message" (.str "1 messages retrieved.")
    (.cons "data" (.obj (.cons "messages"
      (.arr (.cons (.obj (.cons "id" (.num 1)
        (.cons "ciphertext" (.str "C1") .nil))) .nil)) .nil))
    .nil)))

/-- The response the handler produces for the successful post used as
concrete input. -/
def respPost : JSON :=
  .obj (.cons "status" (.num 201)
    (.cons "message" (.str "Message posted successfully.")
    (.cons "data" (.obj (.cons "timestamp" (.str "7") .nil))
    .nil)))

/-- First insertion order of the two-field data object. -/
def exOrder1 : JSON := .obj (.cons "a" (.num 0) (.cons "b" (.num 1) .nil))

/-- The same logical object with the opposite field insertion order. -/
def exOrder2 : JSON := .obj (.cons "b" (.num 1) (.cons "a" (.num 0) .nil))

/-- The first object written with different numeric expressions. -/
def exOrder3 : JSON :=
  .obj (.cons "a" (.num (0 + 0)) (.cons "b" (.num (2 - 1)) .nil))

/-- A data object carrying the Python value True. -/
def exBool1 : JSON := .obj (.cons "a" (.bool true) .nil)

/-- The logically equal data object carrying the integer 1 instead
(True == 1 in Python), with the identical field insertion order. -/
def exBool2 : JSON := .obj (.cons "a" (.num 1) .nil)

theorem objLookup_cons (k : String) (v : JSON) (tl : JSONObj) (key : String) :
    objLookup (.cons k v tl) key =
      if k == key then some v else objLookup tl key := rfl

theorem insertEncryptedMessage_ok {db db2 : DB} {c s : String}
    {sid rid ts : Nat} {m : EncryptedMessage}
    (h : db.insertEncryptedMessage c s sid rid ts = .ok (db2, m)) :
    db2.users = db.users ∧ db2.exchange_keys = db.exchange_keys ∧
    db2.messages = db.messages ++ [m] ∧
    m.sender_id = sid ∧ m.recipient_id = rid ∧ m.timestamp = ts ∧
    rid ≠ sid ∧
    ∀ m2 ∈ db.messages, ¬(m2.recipient_id = rid ∧ m2.timestamp = ts) := by
  unfold DB.insertEncryptedMessage at h
  by_cases h1 : rid = sid
  · simp [h1] at h
  · rw [if_neg (by simpa using h1)] at h
    by_cases h2 : db.messages.any
        (fun m => m.recipient_id == rid && m.timestamp == ts)
    · rw [if_pos h2] at h; exact absurd h (by simp)
    · rw [if_neg h2] at h
      simp only [Except.ok.injEq, Prod.mk.injEq] at h
      obtain ⟨hdb, hm⟩ := h
      subst hdb; subst hm
      refine ⟨rfl, rfl, rfl, rfl, rfl, rfl, h1, ?_⟩
      intro m2 hm2 hc
      apply h2
      simp only [List.any_eq_true]
      exact ⟨m2, hm2, by simp [hc.1, hc.2]⟩

theorem insertEncryptedMessage_self {db : DB} {c s : String} {uid ts : Nat} :
    db.insertEncryptedMessage c s uid uid ts = .error .integrityError := by
  unfold DB.insertEncryptedMessage
  simp

theorem insertEncryptedMessage_dup {db : DB} {c s : String}
    {sid rid ts : Nat} {m : EncryptedMessage} (hm : m ∈ db.messages)
    (hr : m.recipient_id = rid) (ht : m.timestamp = ts) :
    db.insertEncryptedMessage c s sid rid ts = .error .integrityError := by
  unfold DB.insertEncryptedMessage
  by_cases h1 : rid = sid
  · simp [h1]
  · rw [if_neg (by simpa using h1), if_pos]
    simp only [List.any_eq_true]
    exact ⟨m, hm, by simp [hr, ht]⟩

theorem get_user_id_db {db : DB} {key : String} :
    (get_user_id db key).1.messages = db.messages ∧
    (get_user_id db key).1.exchange_keys = db.exchange_keys := by
  unfold get_user_id
  cases db.users.find? (fun u => u.public_key == key) <;> simp

theorem get_user_id_found {db : DB} {key : String} {u : User}
    (h : db.users.find? (fun u => u.public_key == key) = some u) :
    get_user_id db key = (db, u.id, [Event.identityResolution]) := by
  unfold get_user_id
  rw [h]

theorem retrieve_messages_db {parseIso : String → Option Nat} {db : DB}
    {data : JSONObj} {uid : Nat} :
    (retrieve_messages parseIso db data uid).db = db := by
  unfold retrieve_messages
  split
  · rfl
  · next v hv =>
      cases parseIso (pyStr v) <;> rfl

theorem post_message_db (db : DB) (data : JSONObj) (uid now : Nat) :
    (post_message db data uid now).db.exchange_keys = db.exchange_keys ∧
    ((post_message db data uid now).db.messages = db.messages ∨
     ∃ m, (post_message db data uid now).db.messages = db.messages ++ [m] ∧
       m.sender_id = uid ∧ m.timestamp = now ∧
       m.recipient_id ≠ m.sender_id ∧
       ∀ m2 ∈ db.messages,
         ¬(m2.recipient_id = m.recipient_id ∧ m2.timestamp = m.timestamp)) := by
  unfold post_message
  split
  · exact ⟨rfl, Or.inl rfl⟩
  next rk hrk =>
  split
  · exact ⟨rfl, Or.inl rfl⟩
  next ct hct =>
  split
  · exact ⟨rfl, Or.inl rfl⟩
  next sg hsg =>
  dsimp only
  have hg := @get_user_id_db db (pyStr rk)
  split
  · next e heq =>
      exact ⟨hg.2, Or.inl hg.1⟩
  · next db2 m heq =>
      have hi := insertEncryptedMessage_ok heq
      obtain ⟨hu, hk, hmsgs, hsid, hrid, hts, hne, hfresh⟩ := hi
      refine ⟨by rw [hk, hg.2], Or.inr ⟨m, ?_, hsid, hts, ?_, ?_⟩⟩
      · rw [hmsgs, hg.1]
      · rw [hrid, hsid]; exact hne
      · intro m2 hm2
        rw [hrid, hts]
        exact hfresh m2 (by rw [hg.1]; exact hm2)

theorem post_message_ok {db : DB} {data : JSONObj} {uid now : Nat} {j : JSON}
    (h : (post_message db data uid now).result = .ok j) :
    responseStatus j = some (.num 201) ∧ responseHasData j = true ∧
    respDataLookup j "timestamp" = some (.str (isoformat now)) ∧
    respDataLookup j "nonce" = none ∧
    ∃ m, (post_message db data uid now).db.messages = db.messages ++ [m] ∧
      m.timestamp = now ∧ m.sender_id = uid := by
  unfold post_message at h ⊢
  cases hrk : pyIndex (.obj data) "recipient_public_key" with
  | error e => rw [hrk] at h; exact absurd h (by simp)
  | ok rk =>
  simp only [hrk] at h ⊢
  cases hct : pyIndex (.obj data) "ciphertext" with
  | error e => rw [hct] at h; exact absurd h (by simp)
  | ok ct =>
  simp only [hct] at h ⊢
  cases hsg : pyIndex (.obj data) "signature" with
  | error e => rw [hsg] at h; exact absurd h (by simp)
  | ok sg =>
  simp only [hsg] at h ⊢
  try dsimp only at h ⊢
  have hg := @get_user_id_db db (pyStr rk)
  cases heqi : (get_user_id db (pyStr rk)).1.insertEncryptedMessage
      (pyStr ct) (pyStr sg) uid (get_user_id db (pyStr rk)).2.1 now with
  | error e => rw [heqi] at h; exact absurd h (by simp)
  | ok p =>
    obtain ⟨db2, m⟩ := p
    simp only [heqi] at h ⊢
    try dsimp only at h ⊢
    have hi := insertEncryptedMessage_ok heqi
    obtain ⟨hu, hk, hmsgs, hsid, hrid, hts, hne, hfresh⟩ := hi
    simp only [Except.ok.injEq] at h
    subst h
    refine ⟨rfl, rfl, ?_, rfl, m, ?_, hts, hsid⟩
    · rw [hts]; rfl
    · rw [hmsgs, hg.1]

theorem retrieve_messages_ok {parseIso : String → Option Nat} {db : DB}
    {data : JSONObj} {uid : Nat} {j : JSON}
    (h : (retrieve_messages parseIso db data uid).result = .ok j) :
    responseStatus j = some (.num 200) ∧ responseHasData j = true ∧
    respDataLookup j "messages" =
      some (.arr (listToJSONList ((retrieve_rows db uid).map messageRowJSON))) := by
  unfold retrieve_messages at h
  split at h
  · simp only [Except.ok.injEq] at h
    subst h
    exact ⟨rfl, rfl, rfl⟩
  · next v hv =>
      cases hp : parseIso (pyStr v) with
      | none =>
          rw [hp] at h
          exact Except.noConfusion h
      | some t =>
          simp only [hp, Except.ok.injEq] at h
          subst h
          exact ⟨rfl, rfl, rfl⟩

theorem errorResponse_shape (limit : Int) (e : PyError) :
    ∃ s, responseStatus (errorResponse limit e) = some (.num s) ∧
      (s = 413 ∨ s = 500) ∧
      responseHasData (errorResponse limit e) = false := by
  cases e <;>
    first
      | exact ⟨500, rfl, Or.inr rfl, rfl⟩
      | exact ⟨413, rfl, Or.inl rfl, rfl⟩

theorem errorResponse_500 (limit : Int) (e : PyError)
    (h : e ≠ PyError.requestTooLarge) :
    responseStatus (errorResponse limit e) = some (.num 500) := by
  cases e <;> first | rfl | exact absurd rfl h

theorem processRequest_validate_error {parse : List Nat → Option JSON}
    {b64 : String → Option (List Nat)}
    {verify : List Nat → List Nat → String → Bool}
    {parseIso : String → Option Nat} {limit : Int} {raw : List Nat}
    {db : DB} {now : Nat} {e : PyError}
    (h : validateRequest parse b64 verify limit raw = .error e) :
    processRequest parse b64 verify parseIso limit raw db now =
      ⟨.error e, db, []⟩ := by
  unfold processRequest
  rw [h]

theorem processRequest_shape (parse : List Nat → Option JSON)
    (b64 : String → Option (List Nat))
    (verify : List Nat → List Nat → String → Bool)
    (parseIso : String → Option Nat) (limit : Int) (raw : List Nat)
    (db : DB) (now : Nat) :
    (((processRequest parse b64 verify parseIso limit raw db now).trace = [] ∧
      (processRequest parse b64 verify parseIso limit raw db now).db = db) ∨
     ∃ t, (processRequest parse b64 verify parseIso limit raw db now).trace =
       Event.verified :: t) ∧
    (processRequest parse b64 verify parseIso limit raw db now).db.exchange_keys =
      db.exchange_keys ∧
    ((processRequest parse b64 verify parseIso limit raw db now).db.messages =
       db.messages ∨
     ∃ m, (processRequest parse b64 verify parseIso limit raw db now).db.messages =
         db.messages ++ [m] ∧
       m.recipient_id ≠ m.sender_id ∧
       ∀ m2 ∈ db.messages,
         ¬(m2.recipient_id = m.recipient_id ∧ m2.timestamp = m.timestamp)) := by
  unfold processRequest
  split
  · exact ⟨Or.inl ⟨rfl, rfl⟩, rfl, Or.inl rfl⟩
  next dataObj pk hpr =>
  split
  · exact ⟨Or.inr ⟨[], rfl⟩, rfl, Or.inl rfl⟩
  next act hact =>
  split
  · exact ⟨Or.inr ⟨[], rfl⟩, rfl, Or.inl rfl⟩
  next name hname =>
  dsimp only
  refine ⟨Or.inr ⟨_, rfl⟩, ?_⟩
  split
  · -- POST_MESSAGE branch
    have hg := @get_user_id_db db pk
    have hp := post_message_db (get_user_id db pk).1 dataObj
      (get_user_id db pk).2.1 now
    constructor
    · rw [hp.1, hg.2]
    · rcases hp.2 with h1 | ⟨m, h1, _, _, hne, hfresh⟩
      · exact Or.inl (by rw [h1, hg.1])
      · refine Or.inr ⟨m, by rw [h1, hg.1], hne, ?_⟩
        intro m2 hm2
        exact hfresh m2 (by rw [hg.1]; exact hm2)
  · -- RETRIEVE_MESSAGES branch
    have hg := @get_user_id_db db pk
    have hr := @retrieve_messages_db parseIso (get_user_id db pk).1 dataObj
      (get_user_id db pk).2.1
    constructor
    · rw [hr, hg.2]
    · exact Or.inl (by rw [hr, hg.1])

theorem processRequest_ok_status {parse : List Nat → Option JSON}
    {b64 : String → Option (List Nat)}
    {verify : List Nat → List Nat → String → Bool}
    {parseIso : String → Option Nat} {limit : Int} {raw : List Nat}
    {db : DB} {now : Nat} {j : JSON}
    (h : (processRequest parse b64 verify parseIso limit raw db now).result =
      .ok j) :
    (responseStatus j = some (.num 201) ∨ responseStatus j = some (.num 200)) ∧
    responseHasData j = true := by
  unfold processRequest at h
  split at h
  · exact absurd h (by simp)
  next dataObj pk hpr =>
  split at h
  · exact absurd h (by simp)
  next act hact =>
  split at h
  · exact absurd h (by simp)
  next name hname =>
  dsimp only at h
  split at h
  · have := post_message_ok h
    exact ⟨Or.inl this.1, this.2.1⟩
  · have := retrieve_messages_ok h
    exact ⟨Or.inr this.1, this.2.1⟩

/-- C1: for every inbound request, no identity-resolution call, no
dispatch to a handler, and no storage mutation occurs unless signature
verification has already succeeded for the claimed sender key (every
such event in the connection trace is preceded by the verified event,
which always sits at the head of a non-empty trace); and any request
failing the size, structural, or signature checks leaves storage
unchanged (an error of the validation prefix ends the connection with
the database untouched and an empty trace). -/
theorem c1_verification_precedes_effects (parse : List Nat → Option JSON)
    (b64 : String → Option (List Nat))
    (verify : List Nat → List Nat → String → Bool)
    (parseIso : String → Option Nat) (limit : Int) (raw : List Nat)
    (db : DB) (now : Nat) :
    (∀ e ∈ (Server.listen parse b64 verify parseIso limit raw db now).trace,
       e ≠ Event.verified →
       (Server.listen parse b64 verify parseIso limit raw db now).trace.head? =
         some Event.verified) ∧
    (Event.verified ∉ (Server.listen parse b64 verify parseIso limit raw db now).trace →
       (Server.listen parse b64 verify parseIso limit raw db now).db = db) ∧
    (∀ e0, validateRequest parse b64 verify limit raw = .error e0 →
       (Server.listen parse b64 verify parseIso limit raw db now).db = db ∧
       (Server.listen parse b64 verify parseIso limit raw db now).trace = []) := by
  have hs := (processRequest_shape parse b64 verify parseIso limit raw db now).1
  have hdb : (Server.listen parse b64 verify parseIso limit raw db now).db =
      (processRequest parse b64 verify parseIso limit raw db now).db := rfl
  have htr : (Server.listen parse b64 verify parseIso limit raw db now).trace =
      (processRequest parse b64 verify parseIso limit raw db now).trace := rfl
  refine ⟨?_, ?_, ?_⟩
  · intro e he hne
    rcases hs with ⟨h1, _⟩ | ⟨t, h1⟩
    · rw [htr, h1] at he
      exact absurd he (List.not_mem_nil e)
    · rw [htr, h1]
      rfl
  · intro hnv
    rcases hs with ⟨h1, h2⟩ | ⟨t, h1⟩
    · rw [hdb, h2]
    · exact absurd (by rw [htr, h1]; exact List.mem_cons_self _ _) hnv
  · intro e0 hval
    have := @processRequest_validate_error parse b64 verify parseIso limit
      raw db now e0 hval
    rw [hdb, htr, this]
    exact ⟨rfl, rfl⟩

/-- C1 witness: on a complete successful POST_MESSAGE run the trace
contains a dispatch event and its head is the verified event; the
hypotheses of the claim theorem are discharged on this concrete run. -/
theorem c1_verification_precedes_effects_witness :
    (Server.listen parsePost b64Zero verifyTrue isoAny 4096 [1] emptyDB 7).trace.head? =
      some Event.verified :=
  (c1_verification_precedes_effects parsePost b64Zero verifyTrue isoAny
    4096 [1] emptyDB 7).1 Event.dispatched (by decide) (by decide)

theorem validateRequest_too_large (parse : List Nat → Option JSON)
    (b64 : String → Option (List Nat))
    (verify : List Nat → List Nat → String → Bool)
    {limit : Int} {raw : List Nat}
    (h0 : 0 ≤ limit) (hlen : limit.toNat < raw.length) :
    validateRequest parse b64 verify limit raw = .error .requestTooLarge := by
  have hread : readRequest limit raw = .error .requestTooLarge := by
    unfold readRequest
    rw [if_neg (show ¬limit ≤ -1 by omega)]
    dsimp only
    rw [if_pos]
    rw [List.length_take]
    omega
  unfold validateRequest
  rw [hread]
  rfl

/-- C2 (amended): every accepted connection produces exactly one
response envelope, with the status determined by the outcome category:
413 exactly when the request exceeds a non-negative size ceiling and,
for every other raised error - malformed request, invalid signature,
unrecognised command, integrity or internal failure alike - 500; on
success the handler result is written back unchanged with status 201 or
200 and a data field, which error envelopes never carry.  The statuses
400, 401 and 404 of the claim are never produced, and no raised error
terminates the listening process (the connection function is total and
always yields exactly one envelope). -/
theorem c2_envelope_statuses (parse : List Nat → Option JSON)
    (b64 : String → Option (List Nat))
    (verify : List Nat → List Nat → String → Bool)
    (parseIso : String → Option Nat) (limit : Int) (raw : List Nat)
    (db : DB) (now : Nat) :
    (∃ s : Int,
      responseStatus (Server.listen parse b64 verify parseIso limit raw db now).response =
        some (.num s) ∧
      (s = 200 ∨ s = 201 ∨ s = 413 ∨ s = 500) ∧
      (responseHasData (Server.listen parse b64 verify parseIso limit raw db now).response =
          true ↔ (s = 200 ∨ s = 201))) ∧
    (0 ≤ limit → limit.toNat < raw.length →
      responseStatus (Server.listen parse b64 verify parseIso limit raw db now).response =
        some (.num 413) ∧
      responseHasData (Server.listen parse b64 verify parseIso limit raw db now).response =
        false) ∧
    (∀ e : PyError,
      (processRequest parse b64 verify parseIso limit raw db now).result = .error e →
      responseStatus (Server.listen parse b64 verify parseIso limit raw db now).response =
        some (.num (if e = PyError.requestTooLarge then 413 else 500)) ∧
      responseHasData (Server.listen parse b64 verify parseIso limit raw db now).response =
        false) ∧
    (validateRequest parse b64 verify limit raw = .error .invalidSignature →
      responseStatus (Server.listen parse b64 verify parseIso limit raw db now).response =
        some (.num 500)) ∧
    ((processRequest parse b64 verify parseIso limit raw db now).result =
        .error .unrecognisedCommand →
      responseStatus (Server.listen parse b64 verify parseIso limit raw db now).response =
        some (.num 500)) ∧
    (∀ j : JSON,
      (processRequest parse b64 verify parseIso limit raw db now).result = .ok j →
      (Server.listen parse b64 verify parseIso limit raw db now).response = j ∧
      (responseStatus j = some (.num 201) ∨ responseStatus j = some (.num 200)) ∧
      responseHasData j = true) := by
  have hresp : (Server.listen parse b64 verify parseIso limit raw db now).response =
      (match (processRequest parse b64 verify parseIso limit raw db now).result with
       | .ok resp => resp
       | .error e => errorResponse limit e) := rfl
  have hb : ∀ e : PyError,
      (processRequest parse b64 verify parseIso limit raw db now).result = .error e →
      responseStatus (Server.listen parse b64 verify parseIso limit raw db now).response =
        some (.num (if e = PyError.requestTooLarge then 413 else 500)) ∧
      responseHasData (Server.listen parse b64 verify parseIso limit raw db now).response =
        false := by
    intro e hr
    rw [hresp, hr]
    cases e <;> exact ⟨rfl, rfl⟩
  have hok : ∀ j : JSON,
      (processRequest parse b64 verify parseIso limit raw db now).result = .ok j →
      (Server.listen parse b64 verify parseIso limit raw db now).response = j := by
    intro j hr
    rw [hresp, hr]
  refine ⟨?_, ?_, hb, ?_, ?_, ?_⟩
  · cases hr : (processRequest parse b64 verify parseIso limit raw db now).result with
    | ok j =>
      have hst := processRequest_ok_status hr
      rw [hok j hr]
      rcases hst.1 with h1 | h1
      · exact ⟨201, h1, Or.inr (Or.inl rfl), by simp [hst.2]⟩
      · exact ⟨200, h1, Or.inl rfl, by simp [hst.2]⟩
    | error e =>
      obtain ⟨h1, h2⟩ := hb e hr
      refine ⟨if e = PyError.requestTooLarge then 413 else 500, h1, ?_, ?_⟩
      · split
        · exact Or.inr (Or.inr (Or.inl rfl))
        · exact Or.inr (Or.inr (Or.inr rfl))
      · rw [h2]
        constructor
        · intro hc
          exact absurd hc (by simp)
        · intro hc
          rcases hc with hc | hc <;> split at hc <;> omega
  · intro h0 hlen
    have hval := validateRequest_too_large parse b64 verify h0 hlen
    have hpr := @processRequest_validate_error parse b64 verify parseIso limit
      raw db now PyError.requestTooLarge hval
    have hr : (processRequest parse b64 verify parseIso limit raw db now).result =
        .error PyError.requestTooLarge := by
      rw [hpr]
    simpa using hb PyError.requestTooLarge hr
  · intro hval
    have hpr := @processRequest_validate_error parse b64 verify parseIso limit
      raw db now PyError.invalidSignature hval
    have hr : (processRequest parse b64 verify parseIso limit raw db now).result =
        .error PyError.invalidSignature := by
      rw [hpr]
    simpa using (hb PyError.invalidSignature hr).1
  · intro hr
    simpa using (hb PyError.unrecognisedCommand hr).1
  · intro j hr
    exact ⟨hok j hr, (processRequest_ok_status hr).1,
      (processRequest_ok_status hr).2⟩

/-- C2 witness: on concrete runs the category mapping is exercised: a
five-byte request against ceiling 3 is answered 413, an undecodable
request is answered 500, and a successful post is answered 201 with
data present, each obtained by applying the claim theorem with its
hypotheses discharged on the concrete input. -/
theorem c2_envelope_statuses_witness :
    responseStatus
      (Server.listen parseFail b64Zero verifyTrue isoAny 3 [0, 0, 0, 0, 0]
        emptyDB 0).response = some (.num 413) ∧
    responseStatus
      (Server.listen parseFail b64Zero verifyTrue isoAny 4096 [1, 2, 3]
        emptyDB 0).response = some (.num 500) ∧
    responseStatus
      (Server.listen parsePost b64Zero verifyTrue isoAny 4096 [1] emptyDB
        7).response = some (.num 201) :=
  ⟨((c2_envelope_statuses parseFail b64Zero verifyTrue isoAny 3 [0, 0, 0, 0, 0]
      emptyDB 0).2.1 (by decide) (by decide)).1,
   by
    have h := ((c2_envelope_statuses parseFail b64Zero verifyTrue isoAny 4096
      [1, 2, 3] emptyDB 0).2.2.1 PyError.jsonDecode (by decide)).1
    simpa using h,
   by
    have hc := (c2_envelope_statuses parsePost b64Zero verifyTrue isoAny 4096
      [1] emptyDB 7).2.2.2.2.2 respPost (by decide)
    rw [hc.1]
    rcases hc.2.1 with h | h
    · exact h
    · exact absurd h (by decide)⟩

/-- C2 counterexample: a malformed request (bytes json.loads cannot
decode) is answered with status 500, not with the status 400 the claim
prescribes for malformed requests. -/
theorem c2_envelope_statuses_counterexample :
    responseStatus
      (Server.listen parseFail b64Zero verifyTrue isoAny 4096 [1, 2, 3] emptyDB 0).response =
      some (.num 500) ∧
    responseStatus
      (Server.listen parseFail b64Zero verifyTrue isoAny 4096 [1, 2, 3] emptyDB 0).response ≠
      some (.num 400) := by
  constructor
  · rfl
  · decide

/-- C6: with a non-negative configured ceiling, every request longer
than the ceiling is answered with the RequestTooLarge envelope before
any parsing or validation, leaving storage unchanged and the trace
empty, whatever the content; and the pipeline reads at most ceiling+1
bytes: requests agreeing on their first ceiling+1 bytes are handled
identically. -/
theorem c6_size_ceiling (parse : List Nat → Option JSON)
    (b64 : String → Option (List Nat))
    (verify : List Nat → List Nat → String → Bool)
    (parseIso : String → Option Nat) (limit : Int) (db : DB) (now : Nat)
    (h0 : 0 ≤ limit) :
    (∀ raw : List Nat, limit.toNat < raw.length →
       Server.listen parse b64 verify parseIso limit raw db now =
         ⟨errorResponse limit .requestTooLarge, db, []⟩) ∧
    (∀ raw1 raw2 : List Nat,
       raw1.take (limit.toNat + 1) = raw2.take (limit.toNat + 1) →
       Server.listen parse b64 verify parseIso limit raw1 db now =
         Server.listen parse b64 verify parseIso limit raw2 db now) := by
  constructor
  · intro raw hlen
    have hread : readRequest limit raw = .error .requestTooLarge := by
      unfold readRequest
      rw [if_neg (show ¬limit ≤ -1 by omega)]
      dsimp only
      rw [if_pos]
      rw [List.length_take]
      omega
    have hval : validateRequest parse b64 verify limit raw =
        .error .requestTooLarge := by
      unfold validateRequest
      rw [hread]
      rfl
    have hp := @processRequest_validate_error parse b64 verify parseIso limit
      raw db now PyError.requestTooLarge hval
    unfold Server.listen
    rw [hp]
  · intro raw1 raw2 h
    have hread : readRequest limit raw1 = readRequest limit raw2 := by
      unfold readRequest
      rw [if_neg (show ¬limit ≤ -1 by omega), if_neg (show ¬limit ≤ -1 by omega)]
      dsimp only
      rw [h]
    have hval : validateRequest parse b64 verify limit raw1 =
        validateRequest parse b64 verify limit raw2 := by
      unfold validateRequest
      rw [hread]
    unfold Server.listen processRequest
    rw [hval]

/-- C6 witness: with ceiling 3 a five-byte request is rejected as too
large with the database unchanged, discharging the hypotheses of the
claim theorem on concrete input. -/
theorem c6_size_ceiling_witness :
    Server.listen parseFail b64Zero verifyTrue isoAny 3 [0, 0, 0, 0, 0] emptyDB 0 =
      ⟨errorResponse 3 .requestTooLarge, emptyDB, []⟩ :=
  (c6_size_ceiling parseFail b64Zero verifyTrue isoAny 3 emptyDB 0
    (by decide)).1 [0, 0, 0, 0, 0] (by decide)

theorem insertExchangeKey_self {db : DB} {k s : String} {rt : Option String}
    {uid ts : Nat} {n : String} :
    db.insertExchangeKey k s rt uid uid ts n = .error .integrityError := by
  unfold DB.insertExchangeKey
  simp

/-- C9: on every server startup, Server.main drops all tables before
recreating them, so every previously stored User, Message, and
ExchangeKey row is erased and no record accepted before a restart is
retrievable after it: the post-startup store is empty and every
retrieval returns no rows. -/
theorem c9_startup_drops_all (db : DB) :
    (startup db).users = [] ∧ (startup db).messages = [] ∧
    (startup db).exchange_keys = [] ∧
    (∀ m : EncryptedMessage, m ∈ db.messages → m ∉ (startup db).messages) ∧
    (∀ uid : Nat, retrieve_rows (startup db) uid = []) := by
  refine ⟨rfl, rfl, rfl, ?_, ?_⟩
  · intro m hm hc
    exact absurd hc (List.not_mem_nil m)
  · intro uid
    rfl

/-- C9 witness: the message stored in dbPosted is not retrievable after
a restart, discharging the hypotheses of the claim theorem on concrete
input. -/
theorem c9_startup_drops_all_witness :
    (⟨1, "C1", "SG", 2, 1, 7⟩ : EncryptedMessage) ∉ (startup dbPosted).messages ∧
    retrieve_rows (startup dbPosted) 2 = [] :=
  ⟨(c9_startup_drops_all dbPosted).2.2.2.1 _ (by decide),
   (c9_startup_drops_all dbPosted).2.2.2.2 2⟩

/-- C4: a post-message request whose resolved recipient id equals the
caller's resolved sender id fails with the IntegrityError raised by the
check constraint and stores nothing; the no-self-addressed-row
invariant on messages is preserved by every connection; exchange-key
rows are likewise never self-addressed (an exchange-key insert with
sender id equal to recipient id always fails, and the active pipeline
never touches that table at all). -/
theorem c4_no_self_send (parse : List Nat → Option JSON)
    (b64 : String → Option (List Nat))
    (verify : List Nat → List Nat → String → Bool)
    (parseIso : String → Option Nat) (limit : Int) (raw : List Nat)
    (db : DB) (now : Nat) (data : JSONObj) (uid : Nat) (rk ct sg : JSON)
    (hrk : objLookup data "recipient_public_key" = some rk)
    (hct : objLookup data "ciphertext" = some ct)
    (hsg : objLookup data "signature" = some sg)
    (hself : (get_user_id db (pyStr rk)).2.1 = uid) :
    ((post_message db data uid now).result = .error .integrityError ∧
     (post_message db data uid now).db.messages = db.messages) ∧
    (msgsNoSelf db →
      msgsNoSelf (Server.listen parse b64 verify parseIso limit raw db now).db) ∧
    (keysNoSelf db →
      keysNoSelf (Server.listen parse b64 verify parseIso limit raw db now).db) ∧
    (∀ (k s : String) (rt : Option String) (ts : Nat) (n : String),
       db.insertExchangeKey k s rt uid uid ts n = .error .integrityError) := by
  have hdbeq : (Server.listen parse b64 verify parseIso limit raw db now).db =
      (processRequest parse b64 verify parseIso limit raw db now).db := rfl
  have hshape := processRequest_shape parse b64 verify parseIso limit raw db now
  refine ⟨?_, ?_, ?_, ?_⟩
  · have hpirk : pyIndex (.obj data) "recipient_public_key" = .ok rk := by
      simp [pyIndex, hrk]
    have hpict : pyIndex (.obj data) "ciphertext" = .ok ct := by
      simp [pyIndex, hct]
    have hpisg : pyIndex (.obj data) "signature" = .ok sg := by
      simp [pyIndex, hsg]
    unfold post_message
    simp only [hpirk, hpict, hpisg]
    try dsimp only
    rw [hself, insertEncryptedMessage_self]
    exact ⟨rfl, (@get_user_id_db db (pyStr rk)).1⟩
  · intro hns
    rw [hdbeq]
    rcases hshape.2.2 with h1 | ⟨m, h1, hne, _⟩
    · intro m2 hm2
      rw [h1] at hm2
      exact hns m2 hm2
    · intro m2 hm2
      rw [h1] at hm2
      rcases List.mem_append.1 hm2 with h2 | h2
      · exact hns m2 h2
      · rw [List.mem_singleton.1 h2]
        exact fun hc => hne hc.symm
  · intro hks
    rw [hdbeq]
    unfold keysNoSelf
    rw [hshape.2.1]
    exact hks
  · intro k s rt ts n
    exact insertExchangeKey_self

/-- C4 witness: the self-addressed post by user 1 is rejected with
IntegrityError and stores no message, discharging the hypotheses of the
claim theorem on concrete input. -/
theorem c4_no_self_send_witness :
    (post_message dbKA dataSelf 1 7).result = .error .integrityError ∧
    (post_message dbKA dataSelf 1 7).db.messages = dbKA.messages :=
  (c4_no_self_send parseFail b64Zero verifyTrue isoAny 4096 [] dbKA 7
    dataSelf 1 (.str "KA") (.str "C1") (.str "SG")
    (by decide) (by decide) (by decide) (by decide)).1

/-- C10: the active message table enforces a unique index over
(recipient_id, timestamp): the uniqueness invariant is preserved by
every connection, under it any two distinct stored messages addressed
to the same recipient have different timestamps, and a post whose
resolved recipient and server-assigned timestamp collide with a stored
row fails its insert with IntegrityError and stores nothing. -/
theorem c10_unique_recipient_timestamp (parse : List Nat → Option JSON)
    (b64 : String → Option (List Nat))
    (verify : List Nat → List Nat → String → Bool)
    (parseIso : String → Option Nat) (limit : Int) (raw : List Nat)
    (db : DB) (now : Nat) (data : JSONObj) (uid : Nat) (rk ct sg : JSON)
    (m : EncryptedMessage)
    (hrk : objLookup data "recipient_public_key" = some rk)
    (hct : objLookup data "ciphertext" = some ct)
    (hsg : objLookup data "signature" = some sg)
    (hm : m ∈ db.messages)
    (hrec : m.recipient_id = (get_user_id db (pyStr rk)).2.1)
    (hts : m.timestamp = now) :
    ((post_message db data uid now).result = .error .integrityError ∧
     (post_message db data uid now).db.messages = db.messages) ∧
    (msgsUniqueRT db →
      msgsUniqueRT (Server.listen parse b64 verify parseIso limit raw db now).db) ∧
    (msgsUniqueRT db → ∀ m1 m2 : EncryptedMessage,
      m1 ∈ db.messages → m2 ∈ db.messages → m1 ≠ m2 →
      m1.recipient_id = m2.recipient_id → m1.timestamp ≠ m2.timestamp) := by
  have hdbeq : (Server.listen parse b64 verify parseIso limit raw db now).db =
      (processRequest parse b64 verify parseIso limit raw db now).db := rfl
  have hshape := processRequest_shape parse b64 verify parseIso limit raw db now
  refine ⟨?_, ?_, ?_⟩
  · have hpirk : pyIndex (.obj data) "recipient_public_key" = .ok rk := by
      simp [pyIndex, hrk]
    have hpict : pyIndex (.obj data) "ciphertext" = .ok ct := by
      simp [pyIndex, hct]
    have hpisg : pyIndex (.obj data) "signature" = .ok sg := by
      simp [pyIndex, hsg]
    have hg := @get_user_id_db db (pyStr rk)
    unfold post_message
    simp only [hpirk, hpict, hpisg]
    try dsimp only
    rw [insertEncryptedMessage_dup (by rw [hg.1]; exact hm) hrec hts]
    exact ⟨rfl, hg.1⟩
  · intro huniq
    rw [hdbeq]
    unfold msgsUniqueRT
    rcases hshape.2.2 with h1 | ⟨m1, h1, _, hfresh⟩
    · rw [h1]
      exact huniq
    · rw [h1]
      rw [List.pairwise_append]
      refine ⟨huniq, List.pairwise_singleton _ _, ?_⟩
      intro a ha b hb
      rw [List.mem_singleton.1 hb]
      exact hfresh a ha
  · intro huniq m1 m2 h1 h2 hne hr
    have hsymm : ∀ {x y : EncryptedMessage},
        ¬(x.recipient_id = y.recipient_id ∧ x.timestamp = y.timestamp) →
        ¬(y.recipient_id = x.recipient_id ∧ y.timestamp = x.timestamp) := by
      intro x y hxy hc
      exact hxy ⟨hc.1.symm, hc.2.symm⟩
    have := List.Pairwise.forall (fun x y h => hsymm h) huniq h1 h2 hne
    intro hc
    exact this ⟨hr, hc⟩

/-- C10 witness: posting to KB (id 2) at the timestamp already used by
the stored message to KB fails with IntegrityError and the table keeps
its single row, discharging the hypotheses of the claim theorem on
concrete input. -/
theorem c10_unique_recipient_timestamp_witness :
    (post_message dbPosted dataToKB 1 7).result = .error .integrityError ∧
    (post_message dbPosted dataToKB 1 7).db.messages = dbPosted.messages :=
  (c10_unique_recipient_timestamp parseFail b64Zero verifyTrue isoAny 4096 []
    dbPosted 7 dataToKB 1 (.str "KB") (.str "C2") (.str "S2")
    ⟨1, "C1", "SG", 2, 1, 7⟩
    (by decide) (by decide) (by decide) (by decide) (by decide) (by decide)).1

theorem insertByTs_perm (m : EncryptedMessage) (l : List EncryptedMessage) :
    List.Perm (insertByTs m l) (m :: l) := by
  induction l with
  | nil => exact List.Perm.refl _
  | cons x xs ih =>
    unfold insertByTs
    split
    · exact List.Perm.refl _
    · exact List.Perm.trans (List.Perm.cons x ih) (List.Perm.swap m x xs)

theorem orderByTimestamp_perm (l : List EncryptedMessage) :
    List.Perm (orderByTimestamp l) l := by
  induction l with
  | nil => exact List.Perm.refl _
  | cons x xs ih =>
    have h1 : orderByTimestamp (x :: xs) = insertByTs x (orderByTimestamp xs) := rfl
    rw [h1]
    exact List.Perm.trans (insertByTs_perm x (orderByTimestamp xs))
      (List.Perm.cons x ih)

theorem insertByTs_sorted (m : EncryptedMessage) (l : List EncryptedMessage)
    (h : List.Pairwise (fun a b => a.timestamp ≤ b.timestamp) l) :
    List.Pairwise (fun a b => a.timestamp ≤ b.timestamp) (insertByTs m l) := by
  induction l with
  | nil => exact List.pairwise_singleton _ _
  | cons x xs ih =>
    rw [List.pairwise_cons] at h
    unfold insertByTs
    split
    · next hle =>
      rw [List.pairwise_cons]
      refine ⟨?_, List.pairwise_cons.2 h⟩
      intro b hb
      rcases List.mem_cons.1 hb with h1 | h1
      · rw [h1]
        exact hle
      · exact le_trans hle (h.1 b h1)
    · next hgt =>
      rw [List.pairwise_cons]
      refine ⟨?_, ih h.2⟩
      intro b hb
      have hmem := (insertByTs_perm m xs).mem_iff.1 hb
      rcases List.mem_cons.1 hmem with h1 | h1
      · rw [h1]
        omega
      · exact h.1 b h1

theorem orderByTimestamp_sorted (l : List EncryptedMessage) :
    List.Pairwise (fun a b => a.timestamp ≤ b.timestamp) (orderByTimestamp l) := by
  induction l with
  | nil => exact List.Pairwise.nil
  | cons x xs ih => exact insertByTs_sorted x (orderByTimestamp xs) ih

/-- C3 (amended): for every message-retrieval request that succeeds,
the returned rows are exactly the stored messages whose recipient id
equals the caller's resolved id, in strictly ascending timestamp order
(ties are impossible for one recipient under the unique index); the
supplied minimum-timestamp bound, though parsed and validated, is not
applied, no sender allow-list filter exists, each returned row carries
only the insertion id and the ciphertext, and the database is left
unchanged. -/
theorem c3_retrieval_rows (parseIso : String → Option Nat) (db : DB)
    (data : JSONObj) (uid : Nat) (j : JSON)
    (huniq : msgsUniqueRT db)
    (hok : (retrieve_messages parseIso db data uid).result = .ok j) :
    List.Perm (retrieve_rows db uid)
      (db.messages.filter (fun m => m.recipient_id == uid)) ∧
    (∀ m ∈ retrieve_rows db uid, m.recipient_id = uid) ∧
    List.Pairwise (fun a b => a.timestamp < b.timestamp) (retrieve_rows db uid) ∧
    respDataLookup j "messages" =
      some (.arr (listToJSONList ((retrieve_rows db uid).map messageRowJSON))) ∧
    (retrieve_messages parseIso db data uid).db = db := by
  have hperm : List.Perm (retrieve_rows db uid)
      (db.messages.filter (fun m => m.recipient_id == uid)) :=
    orderByTimestamp_perm _
  have hmem : ∀ m ∈ retrieve_rows db uid, m.recipient_id = uid := by
    intro m hm
    have := hperm.mem_iff.1 hm
    have := List.of_mem_filter this
    simpa using this
  have hsorted := orderByTimestamp_sorted
    (db.messages.filter (fun m => m.recipient_id == uid))
  have hsymm : ∀ {x y : EncryptedMessage},
      ¬(x.recipient_id = y.recipient_id ∧ x.timestamp = y.timestamp) →
      ¬(y.recipient_id = x.recipient_id ∧ y.timestamp = x.timestamp) := by
    intro x y hxy hc
    exact hxy ⟨hc.1.symm, hc.2.symm⟩
  have huniqf : List.Pairwise (fun m1 m2 =>
      ¬(m1.recipient_id = m2.recipient_id ∧ m1.timestamp = m2.timestamp))
      (db.messages.filter (fun m => m.recipient_id == uid)) :=
    List.Pairwise.sublist (List.filter_sublist db.messages) huniq
  have hne : List.Pairwise (fun m1 m2 =>
      ¬(m1.recipient_id = m2.recipient_id ∧ m1.timestamp = m2.timestamp))
      (retrieve_rows db uid) :=
    (List.Perm.pairwise_iff (fun h => hsymm h) hperm).2 huniqf
  have hstrict : List.Pairwise (fun a b => a.timestamp < b.timestamp)
      (retrieve_rows db uid) := by
    have hboth := List.Pairwise.and hsorted hne
    refine List.Pairwise.imp_of_mem ?_ hboth
    intro a b ha hb hab
    have hra := hmem a ha
    have hrb := hmem b hb
    rcases hab with ⟨hle, hnab⟩
    rcases Nat.lt_or_ge a.timestamp b.timestamp with h | h
    · exact h
    · exact absurd ⟨by rw [hra, hrb], by omega⟩ hnab
  exact ⟨hperm, hmem, hstrict, (retrieve_messages_ok hok).2.2,
    retrieve_messages_db⟩

/-- C3 counterexample: user 2 retrieves with a minimum timestamp of 10,
yet the stored message with timestamp 7 is returned (the bound is
parsed, then dropped from the query by the Python and), and the row
carries only the insertion id and the ciphertext rather than the
sender key, ciphertext, signature, timestamp and nonce the claim
prescribes; the rows prescribed by the claim for this request are
empty and differ from what the code returns. -/
theorem c3_retrieval_rows_counterexample :
    retrieve_rows dbPosted 2 ≠ c3_claimed_rows dbPosted 2 (some 10) ∧
    c3_claimed_rows dbPosted 2 (some 10) = [] ∧
    retrieve_rows dbPosted 2 = [⟨1, "C1", "SG", 2, 1, 7⟩] ∧
    (retrieve_messages iso10 dbPosted dataRetMin 2).result = .ok respRet ∧
    respDataLookup respRet "messages" =
      some (.arr (.cons (.obj (.cons "id" (.num 1)
        (.cons "ciphertext" (.str "C1") .nil))) .nil)) := by
  refine ⟨by decide, by decide, by decide, ?_, by decide⟩
  rfl

/-- C3 witness: the amended claim theorem applied to the concrete
retrieval by user 2 against dbPosted, discharging its hypotheses on
concrete input. -/
theorem c3_retrieval_rows_witness :
    respDataLookup respRet "messages" =
      some (.arr (listToJSONList
        ((retrieve_rows dbPosted 2).map messageRowJSON))) ∧
    List.Pairwise (fun a b => a.timestamp < b.timestamp)
      (retrieve_rows dbPosted 2) :=
  ⟨(c3_retrieval_rows isoAny dbPosted dataRet 2 respRet (by decide) rfl).2.2.2.1,
   (c3_retrieval_rows isoAny dbPosted dataRet 2 respRet (by decide) rfl).2.2.1⟩

theorem find?_unique_key {l : List User} {w : User} {key : String}
    (hwf : usersUniqueKeys l) (hw : w ∈ l) (hk : w.public_key = key) :
    l.find? (fun u => u.public_key == key) = some w := by
  induction l with
  | nil => exact absurd hw (List.not_mem_nil w)
  | cons x xs ih =>
    unfold usersUniqueKeys at hwf
    rw [List.pairwise_cons] at hwf
    rcases List.mem_cons.1 hw with h | h
    · subst h
      exact List.find?_cons_of_pos xs (by simp [hk])
    · have hxk : x.public_key ≠ key := by
        rw [← hk]
        exact hwf.1 w h
      rw [List.find?_cons_of_neg xs (by simp [hxk])]
      exact ih hwf.2 h

/-- C5: get_or_create_user is idempotent: once any call has succeeded,
a subsequent call with the same key returns the same table and the same
id without creating a second row; and when the read misses but a
concurrent winner's row is committed before this caller's commit, the
failed insert is discarded (the table stays exactly the read state plus
the interference) and the function re-reads by key and returns the
winner's id. -/
theorem c5_get_or_create_user (users itf : List User) (key : String)
    (hwf : usersUniqueKeys (users ++ itf)) :
    (∀ (us1 : List User) (i : Nat),
       get_or_create_user users itf key = some (us1, i) →
       get_or_create_user us1 [] key = some (us1, i)) ∧
    (∀ w ∈ itf, w.public_key = key →
       (∀ u ∈ users, u.public_key ≠ key) →
       get_or_create_user users itf key = some (users ++ itf, w.id)) := by
  constructor
  · intro us1 i h
    cases hfind : users.find? (fun u => u.public_key == key) with
    | some u =>
      unfold get_or_create_user at h
      rw [hfind] at h
      try dsimp only at h
      simp only [Option.some.injEq, Prod.mk.injEq] at h
      obtain ⟨h1, h2⟩ := h
      subst h1; subst h2
      have hfind2 : (users ++ itf).find? (fun u => u.public_key == key) =
          some u := by
        rw [List.find?_append, hfind]
        rfl
      unfold get_or_create_user
      rw [hfind2, List.append_nil]
    | none =>
      unfold get_or_create_user at h
      rw [hfind] at h
      try dsimp only at h
      by_cases hany : ((users ++ itf).any (fun u => u.public_key == key)) = true
      · rw [if_pos hany] at h
        obtain ⟨w0, hw0⟩ := Option.isSome_iff_exists.1
          (List.find?_isSome.2 (List.any_eq_true.1 hany))
        rw [hw0] at h
        simp only [Option.map_some', Option.some.injEq, Prod.mk.injEq] at h
        obtain ⟨h1, h2⟩ := h
        subst h1; subst h2
        unfold get_or_create_user
        rw [hw0, List.append_nil]
      · rw [if_neg hany] at h
        try dsimp only at h
        rw [Bool.not_eq_true] at hany
        have hnone : (users ++ itf).find? (fun u => u.public_key == key) =
            none :=
          List.find?_eq_none.2 (List.any_eq_false.1 hany)
        have hfind3 : ((users ++ itf) ++
            [(⟨freshId (List.map User.id (users ++ itf)), key⟩ : User)]).find?
              (fun u2 => u2.public_key == key) =
            some (⟨freshId (List.map User.id (users ++ itf)), key⟩ : User) := by
          rw [List.find?_append]
          rw [show (users ++ itf).find? (fun u2 => u2.public_key == key) =
            none from hnone]
          simp
        rw [hfind3] at h
        simp only [Option.map_some', Option.some.injEq, Prod.mk.injEq] at h
        obtain ⟨h1, h2⟩ := h
        subst h1; subst h2
        unfold get_or_create_user
        rw [show ((users ++ itf) ++
            [(⟨freshId (List.map User.id (users ++ itf)), key⟩ : User)]).find?
              (fun u => u.public_key == key) =
            some ⟨freshId (List.map User.id (users ++ itf)), key⟩
          from hfind3, List.append_nil]
  · intro w hw hk hnone
    have hfind : users.find? (fun u => u.public_key == key) = none := by
      refine List.find?_eq_none.2 ?_
      intro x hx
      simp [hnone x hx]
    have hany : ((users ++ itf).any (fun u => u.public_key == key)) = true := by
      refine List.any_eq_true.2 ⟨w, List.mem_append.2 (Or.inr hw), by simp [hk]⟩
    have hfindw : (users ++ itf).find? (fun u => u.public_key == key) =
        some w :=
      find?_unique_key hwf (List.mem_append.2 (Or.inr hw)) hk
    unfold get_or_create_user
    rw [hfind]
    dsimp only
    rw [if_pos hany, hfindw]
    rfl

/-- C5 witness: with one existing user and a concurrent winner for key
K committed between read and commit, the caller converges on the winner
row and id, discharging the hypotheses of the claim theorem on concrete
input. -/
theorem c5_get_or_create_user_witness :
    get_or_create_user [⟨1, "A"⟩] [⟨2, "K"⟩] "K" =
      some ([⟨1, "A"⟩, ⟨2, "K"⟩], 2) :=
  (c5_get_or_create_user [⟨1, "A"⟩] [⟨2, "K"⟩] "K" (by decide)).2
    ⟨2, "K"⟩ (by decide) (by decide) (by decide)

/-- C8 (amended): for every successful post-message request, a message
row is inserted whose timestamp is the server-assigned time of the
request, and the success response's data payload contains exactly that
timestamp; the active message model has no nonce column and the
response data carries no nonce field. -/
theorem c8_post_receipt (db : DB) (data : JSONObj) (uid now : Nat) (j : JSON)
    (h : (post_message db data uid now).result = .ok j) :
    respDataLookup j "timestamp" = some (.str (isoformat now)) ∧
    respDataLookup j "nonce" = none ∧
    ∃ m, (post_message db data uid now).db.messages = db.messages ++ [m] ∧
      m.timestamp = now ∧ m.sender_id = uid := by
  have hh := post_message_ok h
  exact ⟨hh.2.2.1, hh.2.2.2.1, hh.2.2.2.2⟩

/-- C8 witness: the concrete post by user 1 at tick 7 succeeds with the
timestamp receipt and no nonce, discharging the hypotheses of the claim
theorem on concrete input. -/
theorem c8_post_receipt_witness :
    respDataLookup respPost "timestamp" = some (.str (isoformat 7)) ∧
    respDataLookup respPost "nonce" = none :=
  ⟨(c8_post_receipt dbKA dataToKB 1 7 respPost rfl).1,
   (c8_post_receipt dbKA dataToKB 1 7 respPost rfl).2.1⟩

/-- C8 counterexample: the success response for a concrete post carries
a data payload holding only the timestamp, with no nonce field, and the
stored row model itself has no nonce column, contradicting the claim
that the payload contains a server-assigned nonce. -/
theorem c8_post_receipt_counterexample :
    (post_message dbKA dataToKB 1 7).result = .ok respPost ∧
    respDataLookup respPost "nonce" = none ∧
    respDataLookup respPost "timestamp" = some (.str "7") := by
  refine ⟨?_, by decide, by decide⟩
  rfl

theorem objAligned_keys : ∀ (xs ys : JSONObj), objAligned xs ys = true →
    objKeys xs = objKeys ys
  | .nil, .nil, _ => rfl
  | .nil, .cons _ _ _, h => Bool.noConfusion h
  | .cons _ _ _, .nil, h => Bool.noConfusion h
  | .cons k v tl, .cons k2 v2 tl2, h => by
      unfold objAligned at h
      simp only [Bool.and_eq_true, beq_iff_eq] at h
      unfold objKeys
      rw [h.1.1, objAligned_keys tl tl2 h.2]

theorem objSubEquiv_tail : ∀ (tl tl2 : JSONObj) (k : String) (v2 : JSON),
    objSubEquiv tl (.cons k v2 tl2) = true → k ∉ objKeys tl →
    objSubEquiv tl tl2 = true
  | .nil, _, _, _, _, _ => rfl
  | .cons k1 w1 rest, tl2, k, v2, h, hk => by
      simp only [objKeys, List.mem_cons, not_or] at hk
      unfold objSubEquiv at h ⊢
      simp only [Bool.and_eq_true] at h
      rw [objLookup_cons, if_neg (by simp [hk.1])] at h
      rw [Bool.and_eq_true]
      exact ⟨h.1, objSubEquiv_tail rest tl2 k v2 h.2 hk.2⟩

mutual
theorem jsonEquiv_eq : ∀ (a b : JSON), wfKeys b = true →
    structAligned a b = true → jsonEquiv a b = true → a = b
  | .null, .null, _, _, _ => rfl
  | .bool x, .bool y, _, _, h => by
      unfold jsonEquiv at h
      simp only [beq_iff_eq] at h
      rw [h]
  | .num x, .num y, _, _, h => by
      unfold jsonEquiv at h
      simp only [beq_iff_eq] at h
      rw [h]
  | .str x, .str y, _, _, h => by
      unfold jsonEquiv at h
      simp only [beq_iff_eq] at h
      rw [h]
  | .arr xs, .arr ys, hw, ha, h => by
      unfold wfKeys at hw
      unfold structAligned at ha
      unfold jsonEquiv at h
      rw [jsonListEquiv_eq xs ys hw ha h]
  | .obj xs, .obj ys, hw, ha, h => by
      unfold wfKeys at hw
      unfold structAligned at ha
      unfold jsonEquiv at h
      simp only [Bool.and_eq_true] at hw h
      rw [objEquiv_eq xs ys (by simpa using hw.1) hw.2 ha h.2]
  | .null, .bool _, _, ha, _ => Bool.noConfusion ha
  | .null, .num _, _, ha, _ => Bool.noConfusion ha
  | .null, .str _, _, ha, _ => Bool.noConfusion ha
  | .null, .arr _, _, ha, _ => Bool.noConfusion ha
  | .null, .obj _, _, ha, _ => Bool.noConfusion ha
  | .bool _, .null, _, ha, _ => Bool.noConfusion ha
  | .bool _, .num _, _, ha, _ => Bool.noConfusion ha
  | .bool _, .str _, _, ha, _ => Bool.noConfusion ha
  | .bool _, .arr _, _, ha, _ => Bool.noConfusion ha
  | .bool _, .obj _, _, ha, _ => Bool.noConfusion ha
  | .num _, .null, _, ha, _ => Bool.noConfusion ha
  | .num _, .bool _, _, ha, _ => Bool.noConfusion ha
  | .num _, .str _, _, ha, _ => Bool.noConfusion ha
  | .num _, .arr _, _, ha, _ => Bool.noConfusion ha
  | .num _, .obj _, _, ha, _ => Bool.noConfusion ha
  | .str _, .null, _, ha, _ => Bool.noConfusion ha
  | .str _, .bool _, _, ha, _ => Bool.noConfusion ha
  | .str _, .num _, _, ha, _ => Bool.noConfusion ha
  | .str _, .arr _, _, ha, _ => Bool.noConfusion ha
  | .str _, .obj _, _, ha, _ => Bool.noConfusion ha
  | .arr _, .null, _, ha, _ => Bool.noConfusion ha
  | .arr _, .bool _, _, ha, _ => Bool.noConfusion ha
  | .arr _, .num _, _, ha, _ => Bool.noConfusion ha
  | .arr _, .str _, _, ha, _ => Bool.noConfusion ha
  | .arr _, .obj _, _, ha, _ => Bool.noConfusion ha
  | .obj _, .null, _, ha, _ => Bool.noConfusion ha
  | .obj _, .bool _, _, ha, _ => Bool.noConfusion ha
  | .obj _, .num _, _, ha, _ => Bool.noConfusion ha
  | .obj _, .str _, _, ha, _ => Bool.noConfusion ha
  | .obj _, .arr _, _, ha, _ => Bool.noConfusion ha
theorem jsonListEquiv_eq : ∀ (xs ys : JSONList), wfKeysList ys = true →
    listAligned xs ys = true → jsonListEquiv xs ys = true → xs = ys
  | .nil, .nil, _, _, _ => rfl
  | .nil, .cons _ _, _, ha, _ => Bool.noConfusion ha
  | .cons _ _, .nil, _, ha, _ => Bool.noConfusion ha
  | .cons x xs, .cons y ys, hw, ha, h => by
      unfold wfKeysList at hw
      unfold listAligned at ha
      unfold jsonListEquiv at h
      simp only [Bool.and_eq_true] at hw ha h
      rw [jsonEquiv_eq x y hw.1 ha.1 h.1, jsonListEquiv_eq xs ys hw.2 ha.2 h.2]
theorem objEquiv_eq : ∀ (xs ys : JSONObj), (objKeys ys).Nodup →
    wfKeysObj ys = true → objAligned xs ys = true →
    objSubEquiv xs ys = true → xs = ys
  | .nil, .nil, _, _, _, _ => rfl
  | .nil, .cons _ _ _, _, _, ha, _ => Bool.noConfusion ha
  | .cons _ _ _, .nil, _, _, ha, _ => Bool.noConfusion ha
  | .cons k v tl, .cons k2 v2 tl2, hnd, hw, ha, hs => by
      unfold objAligned at ha
      unfold wfKeysObj at hw
      unfold objSubEquiv at hs
      simp only [Bool.and_eq_true, beq_iff_eq] at ha hw hs
      obtain ⟨⟨hk, hav⟩, hat⟩ := ha
      subst hk
      rw [objLookup_cons, if_pos (by simp)] at hs
      obtain ⟨hveq, hsub⟩ := hs
      simp only [objKeys, List.nodup_cons] at hnd
      have hkeys := objAligned_keys tl tl2 hat
      have hknot : k ∉ objKeys tl := by
        rw [hkeys]
        exact hnd.1
      have hsub2 := objSubEquiv_tail tl tl2 k v2 hsub hknot
      rw [jsonEquiv_eq v v2 hw.1 hav hveq,
          objEquiv_eq tl tl2 hnd.2 hw.2 hat hsub2]
end

/-- C7 (amended): the byte encoding json.dumps produces for the data
object is not canonical with respect to logical equality: logically
equal objects can encode to different bytes both when field insertion
order differs and when Python equates values of different types
(True == 1), as the counterexample shows.  Equal encodings are
guaranteed exactly for objects that agree throughout in value type,
value and field insertion order: two logically equal well-formed data
objects with the same type skeleton and insertion order are identical
and therefore encode to identical bytes.  (JSON floats, which add
further such pairs, lie outside the integer-valued model.) -/
theorem c7_encoding_order (d1 d2 : JSON)
    (_h1 : wfKeys d1 = true) (h2 : wfKeys d2 = true)
    (ha : structAligned d1 d2 = true)
    (he : jsonEquiv d1 d2 = true) :
    d1 = d2 ∧ dumps d1 = dumps d2 := by
  have heq := jsonEquiv_eq d1 d2 h2 ha he
  exact ⟨heq, by rw [heq]⟩

/-- C7 witness: the claim theorem applied to two syntactically distinct
writings of the same ordered object, discharging its hypotheses on
concrete input. -/
theorem c7_encoding_order_witness :
    exOrder1 = exOrder3 ∧ dumps exOrder1 = dumps exOrder3 :=
  c7_encoding_order exOrder1 exOrder3 (by decide) (by decide)
    (by decide) (by decide)

/-- C7 counterexample: two pairs of logically equal data objects whose
json.dumps encodings differ, refuting the claimed canonicality of the
verified bytes: one pair differs only in field insertion order, the
other has the identical insertion order and differs only in Python
conflating True with 1. -/
theorem c7_encoding_order_counterexample :
    (jsonEquiv exOrder1 exOrder2 = true ∧
     wfKeys exOrder1 = true ∧ wfKeys exOrder2 = true ∧
     dumps exOrder1 ≠ dumps exOrder2) ∧
    (jsonEquiv exBool1 exBool2 = true ∧
     wfKeys exBool1 = true ∧ wfKeys exBool2 = true ∧
     objKeys (.cons "a" (.bool true) .nil) =
       objKeys (.cons "a" (.num 1) .nil) ∧
     dumps exBool1 ≠ dumps exBool2) :=
  ⟨⟨by decide, by decide, by decide, by decide⟩,
   ⟨by decide, by decide, by decide, by decide, by decide⟩⟩
